import Mathlib

/-!
Shallow embedding of the `DataLayer` synchronization/versioning engine of
`src/umap/static/umap/js/modules/permissions.js` (the uMap data-layer module),
together with proofs about its save protocol, conflict handling, remote-data
fetching, and feature/property indexing.

Conventions used throughout:
* JavaScript objects holding features keyed by Leaflet stamps
  (`this._features`) are modelled as association lists `List (Nat × Feature)`
  whose order mirrors JS object insertion order (`Object.values` iterates in
  insertion order for integer-free string keys created by `stamp`).
* Network I/O is modelled by passing the transport outcome (the
  `[data, response, error]` triple of the server collaborator) as an explicit
  parameter and by returning the list of issued requests/externally visible
  actions alongside the new state.
* Purely presentational side effects (Leaflet panes, DOM, alerts, legend
  rendering, `dataChanged`, `showFeature`) are outside the model; where the
  source calls them, a comment marks the call site.
* Collaborators that live in this repository but outside `src/`
  (`saving.js`, `utils.js` helpers, URL helpers of `umap.js`, Leaflet's
  `stamp`) are modelled from the spec and marked `Modelled from the spec:`.
-/

namespace Umap

/-- JavaScript (JSON) values as they occur in feature property bags.
Numbers are modelled as integers: only `typeof` classification and string
conversion of property values matter to the embedded code. -/
inductive JSValue where
  | str (s : String)
  | num (n : Int)
  | bool (b : Bool)
  | null
  | obj (fields : List (String × JSValue))
  | arr (elems : List JSValue)

/-- JavaScript `typeof` for the modelled values. Note `typeof null`,
`typeof {}` and `typeof []` are all the string `"object"`. -/
def jsTypeof : JSValue → String
  | .str _ => "string"
  | .num _ => "number"
  | .bool _ => "boolean"
  | .null => "object"
  | .obj _ => "object"
  | .arr _ => "object"

/-- Geometry kinds dispatched by `DataLayer.makeFeature`'s `switch` on
`geometry.type`; `other` covers every unrecognized `geometry.type` string. -/
inductive GeomType where
  | point
  | lineString
  | multiLineString
  | polygon
  | multiPolygon
  | other (t : String)

/-- The geometry kinds for which `makeFeature` constructs a feature
(`Point`, `LineString`/`MultiLineString`, `Polygon`/`MultiPolygon`);
on any other kind it alerts `Skipping unknown geometry.type` and skips. -/
def knownGeometry : GeomType → Bool
  | .other _ => false
  | _ => true

/-- One element of a GeoJSON feature collection before materialization:
its geometry kind and its property bag. -/
structure RawFeature where
  geomType : GeomType
  properties : List (String × JSValue) := []

/-- A materialized feature (`Point` / `LineString` / `Polygon` from
`features.js`): its Leaflet stamp, geometry kind and property bag. -/
structure Feature where
  stamp : Nat
  geomType : GeomType
  properties : List (String × JSValue) := []

/-- `feature.toGeoJSON()` restricted to the modelled fields: forgetting the
stamp gives back the raw geometry/properties pair. -/
def Feature.raw (f : Feature) : RawFeature :=
  { geomType := f.geomType, properties := f.properties }

/-- The `options.remoteData` descriptor `{url, format, dynamic, proxy, ttl}`. -/
structure RemoteData where
  url : Option String := none
  format : Option String := none
  dynamic : Bool := false
  proxy : Bool := false
  ttl : Option Nat := none

/-- JavaScript string truthiness for an optional field: absent (`undefined`)
and the empty string are falsy. -/
def truthyStr : Option String → Bool
  | none => false
  | some s => s ≠ ""

/-- The modelled slice of `this.options`. The source keeps an open property
bag; the fields below are the ones the embedded operations read or write.
`defaultOptions` of the constructor is the default value of this structure. -/
structure Options where
  id : String := ""
  name : Option String := none
  displayOnLoad : Bool := true
  inCaption : Bool := true
  browsable : Bool := true
  editMode : String := "advanced"
  remoteData : RemoteData := {}

/-- A partial options object as it arrives in server payloads
(`_umap_options`, or the body of a successful save response): present keys
overwrite, absent keys are left alone by `Object.assign`. -/
structure OptionsPatch where
  id : Option String := none
  name : Option String := none
  displayOnLoad : Option Bool := none
  inCaption : Option Bool := none
  browsable : Option Bool := none
  editMode : Option String := none
  remoteData : Option RemoteData := none

/-- `Object.assign(options, patch)` for the modelled keys. -/
def applyPatch (o : Options) (p : OptionsPatch) : Options :=
  { id := p.id.getD o.id
    name := match p.name with | some v => some v | none => o.name
    displayOnLoad := p.displayOnLoad.getD o.displayOnLoad
    inCaption := p.inCaption.getD o.inCaption
    browsable := p.browsable.getD o.browsable
    editMode := p.editMode.getD o.editMode
    remoteData := p.remoteData.getD o.remoteData }

/-- A GeoJSON payload: a feature collection plus the optional
`_umap_options` member carried by uMap's own layer files. -/
structure GeoJSON where
  features : List RawFeature := []
  umapOptions : Option OptionsPatch := none

/-- `options.toPatch`: the full options object seen as a payload patch, used
when the layer serializes itself (`umapGeoJSON`'s `_umap_options: this.options`). -/
def Options.toPatch (o : Options) : OptionsPatch :=
  { id := some o.id, name := o.name, displayOnLoad := some o.displayOnLoad,
    inCaption := some o.inCaption, browsable := some o.browsable,
    editMode := some o.editMode, remoteData := some o.remoteData }

/-- An HTTP response as consumed by the embedded code: its status code and
the `X-Datalayer-Version` header (`response.headers.get` yields `null`,
modelled `none`, when the header is absent). -/
structure Response where
  status : Nat := 200
  versionHeader : Option String := none

/-- The multipart body built by `DataLayer.save`: layer name,
`display_on_load`, rank, the JSON-encoded settings blob and the
JSON-encoded feature-collection blob. -/
structure FormData where
  name : Option String
  displayOnLoad : Bool
  rank : Int
  settings : Options
  geojson : GeoJSON

/-- The body of a successful save response: optionally a resolved feature
collection (only present when the server merged a conflict upstream), plus
layer metadata merged back via `updateOptions`. -/
structure SaveData where
  geojson : Option GeoJSON := none
  optionsPatch : OptionsPatch := {}

/-- Outcome of one `server.post` (`[data, response, error]`): either an error
(with the response when the server answered at all — carrying the status used
for the 412 check) or success with a parsed body and response. -/
inductive PostOutcome where
  | failure (response : Option Response)
  | success (data : SaveData) (response : Response)

/-- Outcome of the `server.get` issued by `fetchData`. -/
inductive GetOutcome where
  | failure
  | success (geojson : GeoJSON) (response : Response)

/-- Outcome of one remote-data fetch (`umap.request.get` + `formatter.parse`):
network failure (`response` undefined), a non-OK response, an OK response
whose body the format parser rejects, or an OK response parsed to a feature
collection. -/
inductive RemoteOutcome where
  | noResponse
  | notOk (status : Nat)
  | okParseFailed
  | okParsed (geojson : GeoJSON)

/-- Externally visible effects of the embedded operations: issued requests,
the conflict alert (carrying the retry action's url/headers/body), the
`umap.saveAll()` trigger, and `sync.update` notifications. -/
inductive Action where
  | getRequest (url : String)
  | postRequest (url : String) (versionHeader : Option String) (body : FormData)
  | deleteRequest (url : String) (versionHeader : Option String)
  | remoteGetRequest (url : String)
  | conflictAlert (retryUrl : String) (retryVersionHeader : Option String) (retryBody : FormData)
  | saveAllTrigger
  | syncUpdate (referenceVersion : Option String)

/-- The modelled state of one `DataLayer` plus the slots of its owning map
that the layer itself mutates. Field names follow the source. `visibleOnMap`
stands for `isVisible()`'s Leaflet query (`leafletMap.hasLayer(this.layer)`);
`inDatalayersMap`/`inDatalayersIndex`/`rank` stand for membership of the
layer in `umap.datalayers` and `umap.datalayersIndex`; `nextStamp` models
Leaflet's `stamp` counter (global in the source, layer-local here since one
layer is modelled); `sortKey` is the owning map's
`umap.getProperty('sortKey')`. -/
structure DataLayer where
  options : Options := {}
  _referenceVersion : Option String := none
  _index : List Nat := []
  _features : List (Nat × Feature) := []
  _propertiesIndex : List String := []
  _geojson : Option GeoJSON := none
  _geojson_bk : Option GeoJSON := none
  _backupOptions : Options := {}
  _loaded : Bool := false
  _dataloaded : Bool := false
  _loading : Bool := false
  _isDeleted : Bool := false
  _isDirty : Bool := false
  visibleOnMap : Bool := false
  inDatalayersMap : Bool := false
  inDatalayersIndex : Bool := false
  rank : Nat := 0
  nextStamp : Nat := 0
  sortKey : String := ""

/-- `get createdOnServer()`: `Boolean(this._referenceVersion)`. -/
def createdOnServer (s : DataLayer) : Bool :=
  s._referenceVersion.isSome

/-- `isLoaded()`: `!this.createdOnServer || this._loaded` — metadata known. -/
def isLoaded (s : DataLayer) : Bool :=
  !createdOnServer s || s._loaded

/-- `hasDataLoaded()`: `this._dataloaded` — feature payload materialized. -/
def hasDataLoaded (s : DataLayer) : Bool :=
  s._dataloaded

/-- `isRemoteLayer()`: `Boolean(remoteData?.url && remoteData.format)`. -/
def isRemoteLayer (s : DataLayer) : Bool :=
  truthyStr s.options.remoteData.url && truthyStr s.options.remoteData.format

/-- `hasDynamicData()`: `this.isRemoteLayer() && Boolean(remoteData?.dynamic)`. -/
def hasDynamicData (s : DataLayer) : Bool :=
  isRemoteLayer s && s.options.remoteData.dynamic

/-- `isVisible()`: `Boolean(this.layer && leafletMap.hasLayer(this.layer))`. -/
def isVisible (s : DataLayer) : Bool :=
  s.visibleOnMap

/-- Keys of the JS object `this._features` (insertion order). -/
def akeys (m : List (Nat × Feature)) : List Nat :=
  m.map Prod.fst

/-- `Object.values(this._features)` (insertion order). -/
def avalues (m : List (Nat × Feature)) : List Feature :=
  m.map Prod.snd

/-- `this._features[id]` lookup. -/
def alookup (m : List (Nat × Feature)) (k : Nat) : Option Feature :=
  match m with
  | [] => none
  | (k0, v0) :: t => if k0 = k then some v0 else alookup t k

/-- `this._features[id] = feature`: overwrite in place if the key exists
(JS objects keep the original key position), else append. -/
def aset (m : List (Nat × Feature)) (k : Nat) (v : Feature) : List (Nat × Feature) :=
  match m with
  | [] => [(k, v)]
  | (k0, v0) :: t => if k0 = k then (k, v) :: t else (k0, v0) :: aset t k v

/-- `delete this._features[id]`. -/
def aremove (m : List (Nat × Feature)) (k : Nat) : List (Nat × Feature) :=
  match m with
  | [] => []
  | (k0, v0) :: t => if k0 = k then t else (k0, v0) :: aremove t k

/-- `name.indexOf('_') === 0` — the name starts with an underscore. -/
def startsWithUnderscore (name : String) : Bool :=
  match name.data with
  | [] => false
  | c :: _ => c = '_'

/-- `indexProperty(name)`: skip falsy names (the empty string), skip names
whose `indexOf('_') === 0`, then `push` + `sort()` when not yet present.
The in-place `sort()` of an array of strings is rendered as `insertionSort`
by the string order. -/
def indexProperty (name : String) (idx : List String) : List String :=
  if name = "" then idx
  else if startsWithUnderscore name then idx
  else if name ∈ idx then idx
  else List.insertionSort (· ≤ ·) (idx ++ [name])

/-- `indexProperties(feature)`: `for (const i in feature.properties) if
(typeof feature.properties[i] !== 'object') this.indexProperty(i)`. -/
def indexProperties (f : Feature) (idx : List String) : List String :=
  f.properties.foldl
    (fun acc p => if jsTypeof p.2 ≠ "object" then indexProperty p.1 acc else acc) idx

/-- `deindexProperty(name)`: splice the name out when present. -/
def deindexProperty (name : String) (idx : List String) : List String :=
  idx.erase name

/-- `addFeature(feature)`: append the stamp to `_index`, store the feature
under its stamp, index its properties. The calls to
`feature.connectToDataLayer`, the map-wide slug index
(`umap.featuresIndex`), `showFeature` and `dataChanged` touch external
collaborators only. -/
def addFeature (f : Feature) (s : DataLayer) : DataLayer :=
  { s with _index := s._index ++ [f.stamp]
           _features := aset s._features f.stamp f
           _propertiesIndex := indexProperties f s._propertiesIndex }

/-- `this._index.splice(this._index.indexOf(id), 1)`: when the id is
present, remove its first occurrence; when it is absent, `indexOf` yields
`-1` and `splice(-1, 1)` removes the LAST element of the array (and removes
nothing from an empty array). -/
def spliceOutId (l : List Nat) (id : Nat) : List Nat :=
  if id ∈ l then l.erase id else l.dropLast

/-- `removeFeature(feature)`: splice the stamp out of `_index` and delete
the map entry. `feature.sync.delete()`, `hideFeature`, the slug index and
`disconnectFromDataLayer` are external. -/
def removeFeature (f : Feature) (s : DataLayer) : DataLayer :=
  { s with _index := spliceOutId s._index f.stamp
           _features := aremove s._features f.stamp }

/-- `backupData()`: `this._geojson_bk = Utils.CopyJSON(this._geojson)`
(deep copy is the identity on modelled values). -/
def backupData (s : DataLayer) : DataLayer :=
  { s with _geojson_bk := s._geojson }

/-- `clear()`: drop all features and the order sequence; when a `_geojson`
payload was held, back it up and null it. `layer.clearLayers()` and
`dataChanged()` are external rendering. -/
def clear (s : DataLayer) : DataLayer :=
  let s1 := { s with _features := [], _index := [] }
  match s1._geojson with
  | some _ => { backupData s1 with _geojson := none }
  | none => s1

/-- Modelled from the spec: `Utils.sortFeatures` (utils.js, not under
`src/`) sorts by the map's sort key with a locale-aware natural comparison,
ties broken by stable input order. It is modelled as a stable insertion sort
by the string rendering of the sort-key property; the theorems below only
use that it permutes its input. -/
def sortByKey (key : α → String) (l : List α) : List α :=
  List.insertionSort (fun a b => key a ≤ key b) l

/-- String rendering of a property value for sorting purposes. -/
def propString : Option JSValue → String
  | some (.str s) => s
  | some (.num n) => toString n
  | some (.bool b) => toString b
  | _ => ""

/-- Property lookup in a raw property bag. -/
def lookupProp (props : List (String × JSValue)) (name : String) : Option JSValue :=
  (props.find? (fun p => p.1 = name)).map Prod.snd

/-- The sort key of one collection element under the map's `sortKey`. -/
def rawSortString (sortKey : String) (raw : RawFeature) : String :=
  propString (lookupProp raw.properties sortKey)

/-- The sort key of one materialized feature under the map's `sortKey`. -/
def featureSortString (sortKey : String) (f : Feature) : String :=
  propString (lookupProp f.properties sortKey)

/-- `reindex()`: `_index` becomes the stamps of `Object.values(_features)`
sorted by the map's sort key. -/
def reindex (s : DataLayer) : DataLayer :=
  { s with _index := (sortByKey (featureSortString s.sortKey) (avalues s._features)).map Feature.stamp }

/-- `makeFeature(geojson)`: dispatch on the geometry kind; on a known kind
construct the feature (with a fresh Leaflet stamp) and `addFeature` it; on
an unknown kind show the non-fatal `Skipping unknown geometry.type` alert
and continue. `feature.onCommit()` (sync engine) is external. -/
def makeFeature (raw : RawFeature) (s : DataLayer) : DataLayer :=
  if knownGeometry raw.geomType then
    addFeature { stamp := s.nextStamp, geomType := raw.geomType, properties := raw.properties }
      { s with nextStamp := s.nextStamp + 1 }
  else s

/-- `makeFeatures(geojson)`: sort the collection by the map's sort key
(`Utils.sortFeatures`), then materialize each element in order. -/
def makeFeatures (g : GeoJSON) (s : DataLayer) : DataLayer :=
  (sortByKey (rawSortString s.sortKey) g.features).foldl (fun acc raw => makeFeature raw acc) s

/-- `addData(geojson)`: `makeFeatures` wrapped in try/catch ("Do not fail if
remote data is somehow invalid"); the embedded `makeFeatures` is total, so
the catch arm (console logging only) never fires in the model. -/
def addData (g : GeoJSON) (s : DataLayer) : DataLayer :=
  makeFeatures g s

/-- `fromGeoJSON(geojson, sync)`: add the data, remember the payload, set
`_dataloaded` (`onDataLoaded`; `renderLegend`/`dataChanged` are external).
The `sync` flag only controls external `onCommit` notifications. -/
def fromGeoJSON (g : GeoJSON) (_sync : Bool) (s : DataLayer) : DataLayer :=
  let s1 := addData g s
  { s1 with _geojson := some g, _dataloaded := true }

/-- Modelled from the spec: `umap.renderUrl` (umap.js, not under `src/`)
resolves URL templates; variable substitution is not observable here, so it
is the identity. -/
def renderUrl (url : String) : String :=
  url

/-- Modelled from the spec: `umap.proxyUrl` (umap.js, not under `src/`)
rewrites the fetch URL through the caching proxy with a time-to-live
parameter. -/
def proxyUrl (url : String) (ttl : Option Nat) : String :=
  "proxy/" ++ url ++ "/" ++ toString (ttl.getD 0)

/-- `fetchRemoteData(force)`: the three guards, then one GET on the
(possibly proxied) remote URL; on an OK response `clear()` first and then
parse — the parsed features replace the set only if the parser succeeds,
while a parser failure leaves the already-cleared set as is. Error or
non-OK responses change nothing. -/
def fetchRemoteData (force : Bool) (outcome : RemoteOutcome) (s : DataLayer) :
    DataLayer × List Action :=
  if !isRemoteLayer s then (s, [])
  else if !hasDynamicData s && hasDataLoaded s && !force then (s, [])
  else if !isVisible s then (s, [])
  else
    let url0 := renderUrl (s.options.remoteData.url.getD "")
    let url := if s.options.remoteData.proxy then proxyUrl url0 s.options.remoteData.ttl else url0
    let req := [Action.remoteGetRequest url]
    match outcome with
    | .noResponse => (s, req)
    | .notOk _ => (s, req)
    | .okParseFailed => (clear s, req)
    | .okParsed g => (fromGeoJSON g true (clear s), req)

/-- `setOptions(options)`: restart from `CopyJSON(this.defaultOptions)`
(the structure defaults) and merge the incoming object; `delete
options.geojson` only strips the payload duplicate. -/
def setOptions (p : OptionsPatch) (s : DataLayer) : DataLayer :=
  { s with options := applyPatch {} p }

/-- `updateOptions(options)`: `Object.assign(this.options, options)`;
`resetLayer()` only rebuilds the rendering collaborator. -/
def updateOptions (p : OptionsPatch) (s : DataLayer) : DataLayer :=
  { s with options := applyPatch s.options p }

/-- `backupOptions()`: `this._backupOptions = Utils.CopyJSON(this.options)`. -/
def backupOptions (s : DataLayer) : DataLayer :=
  { s with _backupOptions := s.options }

/-- `setReferenceVersion({response, sync})`: read the
`X-Datalayer-Version` response header and propagate it to the sync engine. -/
def setReferenceVersion (resp : Response) (s : DataLayer) : DataLayer × List Action :=
  ({ s with _referenceVersion := resp.versionHeader },
   [Action.syncUpdate resp.versionHeader])

/-- `_dataUrl()`: the `datalayer_view` route; the no-cache query-string
suffix for editors is not observable here. -/
def dataUrl (s : DataLayer) : String :=
  "datalayer_view/" ++ s.options.id

/-- `fromUmapGeoJSON(geojson)`: force the layer's own id into
`_umap_options`, replace the options from it, then either defer to the
remote pipeline (remote-mirror layer) or materialize the embedded features;
finally mark metadata `_loaded`. A payload without `_umap_options` would
make the source throw on line `geojson._umap_options.id = this.id`; such
payloads are not produced by the server and are left unmodelled. -/
def fromUmapGeoJSON (g : GeoJSON) (rout : RemoteOutcome) (s : DataLayer) :
    DataLayer × List Action :=
  let s1 := match g.umapOptions with
    | some p => setOptions { p with id := some s.options.id } s
    | none => s
  let (s2, acts) :=
    if isRemoteLayer s1 then fetchRemoteData false rout s1
    else (fromGeoJSON g false s1, [])
  ({ s2 with _loaded := true }, acts)

/-- `fetchData()`: nothing to do for never-persisted layers; the `_loading`
in-flight guard; then one GET. On success: capture the version token, keep
the local `editMode` (the `_umap_options.editMode` reassignment), load the
payload, back up the options and clear the in-flight flag. On error the
in-flight flag is NOT cleared (the `if (!error)` block is skipped whole). -/
def fetchData (out : GetOutcome) (rout : RemoteOutcome) (s : DataLayer) :
    DataLayer × List Action :=
  if !createdOnServer s then (s, [])
  else if s._loading then (s, [])
  else
    let s1 := { s with _loading := true }
    let req := Action.getRequest (dataUrl s)
    match out with
    | .failure => (s1, [req])
    | .success g resp =>
      let (s2, a1) := setReferenceVersion resp s1
      let g1 := { g with umapOptions :=
        g.umapOptions.map (fun p => { p with editMode := some s2.options.editMode }) }
      let (s3, a2) := fromUmapGeoJSON g1 rout s2
      let s4 := { backupOptions s3 with _loading := false }
      (s4, req :: a1 ++ a2)

/-- `eachFeature` iteration order: the features of `_index` in order. -/
def orderedFeatures (s : DataLayer) : List Feature :=
  s._index.filterMap (alookup s._features)

/-- `featuresToGeoJSON()`: export every feature in index order. -/
def featuresToGeoJSON (s : DataLayer) : List RawFeature :=
  (orderedFeatures s).map Feature.raw

/-- `umapGeoJSON()`: the full snapshot — an empty collection for
remote-mirror layers, the exported features otherwise, plus
`_umap_options: this.options`. -/
def umapGeoJSON (s : DataLayer) : GeoJSON :=
  { features := if isRemoteLayer s then [] else featuresToGeoJSON s
    umapOptions := some s.options.toPatch }

/-- `getRank()`: `umap.datalayersIndex.indexOf(this)` — `-1` when absent. -/
def getRank (s : DataLayer) : Int :=
  if s.inDatalayersIndex then (s.rank : Int) else -1

/-- The `datalayer_save` route of `save()`. -/
def saveUrl (s : DataLayer) : String :=
  "datalayer_save/" ++ s.options.id

/-- The `datalayer_delete` route of `getDeleteUrl()`. -/
def deleteUrl (s : DataLayer) : String :=
  "datalayer_delete/" ++ s.options.id

/-- The multipart body assembled by `save()`. -/
def saveBody (s : DataLayer) : FormData :=
  { name := s.options.name
    displayOnLoad := s.options.displayOnLoad
    rank := getRank s
    settings := s.options
    geojson := umapGeoJSON s }

/-- `connectToMap()`: (re)register the layer in `umap.datalayers` and
`umap.datalayersIndex`; `onDataLayersChanged` is external UI. -/
def connectToMap (s : DataLayer) : DataLayer :=
  { s with inDatalayersMap := true, inDatalayersIndex := true }

/-- Modelled from the spec: the `ServerStored` dirty setter lives in
`saving.js`, which is not under `src/`; it stores the flag and notifies
`onDirty`, and `DataLayer.onDirty` (which IS in the source) resets
`isDeleted` on a clean transition. -/
def setDirtyFalse (s : DataLayer) : DataLayer :=
  { s with _isDirty := false, _isDeleted := false }

/-- `_trySave(url, headers, formData)`: one POST. On an error outcome whose
response has status 412, show the conflict alert — state untouched; the
alert carries the retry action, which will resubmit the SAME body to the
same url with EMPTY headers (no conditional version token). On any other
error outcome, nothing happens (result `undefined`). On success: replace
the feature set when the body carries a resolved `geojson`; merge the
remaining body fields into the options (after `delete data.id` and `delete
data._referenceVersion`); capture the new version token; back up options
and data; reconnect to the map; mark `_loaded`; return `true` (`redraw` is
external rendering). -/
def _trySave (url : String) (headers : Option String) (body : FormData)
    (outcome : PostOutcome) (s : DataLayer) : DataLayer × List Action × Option Bool :=
  let req := Action.postRequest url headers body
  match outcome with
  | .failure resp =>
    if resp.map Response.status = some 412 then
      (s, [req, Action.conflictAlert url none body], none)
    else
      (s, [req], none)
  | .success d resp =>
    let s1 := match d.geojson with
      | some g => fromGeoJSON g true (clear s)
      | none => s
    let s2 := updateOptions { d.optionsPatch with id := none } s1
    let (s3, a1) := setReferenceVersion resp s2
    let s4 := backupData (backupOptions s3)
    let s5 := { connectToMap s4 with _loaded := true }
    (s5, req :: a1, some true)

/-- The retry closure registered on the conflict alert (source lines
inside `_trySave`): `_trySave(url, {}, formData)` — no conditional header —
and, when that succeeds, `this.isDirty = false` followed by
`umap.saveAll()` (the save-everything sweep of the external coordinator). -/
def conflictRetry (url : String) (body : FormData) (outcome : PostOutcome)
    (s : DataLayer) : DataLayer × List Action :=
  let (s1, acts, status) := _trySave url none body outcome s
  if status = some true then
    (setDirtyFalse s1, acts ++ [Action.saveAllTrigger])
  else
    (s1, acts)

/-- `saveDelete()`: when the layer was ever persisted, POST the delete
route (no headers argument at all, hence no conditional version token) and
ignore the outcome entirely; in every case drop the layer from
`umap.datalayers` and return `true`. -/
def saveDelete (_outcome : PostOutcome) (s : DataLayer) : DataLayer × List Action × Option Bool :=
  let acts := if createdOnServer s then [Action.deleteRequest (deleteUrl s) none] else []
  ({ s with inDatalayersMap := false }, acts, some true)

/-- `save()`: tombstone path for deleted layers; no-op (`undefined`) when
metadata is not loaded; otherwise build the snapshot and the conditional
header (`X-Datalayer-Reference` exactly when `_referenceVersion` is set),
`_trySave` it, and remember the transmitted snapshot in `_geojson`. -/
def save (outcome : PostOutcome) (s : DataLayer) : DataLayer × List Action × Option Bool :=
  if s._isDeleted then saveDelete outcome s
  else if !isLoaded s then (s, [], none)
  else
    let geojson := umapGeoJSON s
    let body := saveBody s
    let headers := s._referenceVersion
    let (s1, acts, status) := _trySave (saveUrl s) headers body outcome s
    ({ s1 with _geojson := some geojson }, acts, status)

/-- Modelled from the spec: the save coordination of `saving.js`
(`ServerStored` / the save manager), not under `src/`, clears the `dirty`
flag when `save()` reports success — "Update backups (used for `reset`).
Clear `dirty`. Return success.". -/
def managedSave (outcome : PostOutcome) (s : DataLayer) : DataLayer × List Action × Option Bool :=
  let (s1, acts, status) := save outcome s
  if status = some true then (setDirtyFalse s1, acts, status)
  else (s1, acts, status)

/-- `getFeatureByIndex(index)`: `-1` is rewritten to `length - 1`; then the
plain array access `this._index[index]` (undefined when out of range)
followed by the map access `this._features[id]` (undefined on undefined
id). The source never throws here. -/
def getFeatureByIndex (i : Int) (s : DataLayer) : Option Feature :=
  let j : Int := if i = -1 then (s._index.length : Int) - 1 else i
  (if 0 ≤ j then s._index.get? j.toNat else none).bind (alookup s._features)

/-- The feature-index mutations quantified over by the index invariant:
`addFeature`, `removeFeature`, `clear` and `reindex`. -/
inductive IndexOp where
  | addOp (f : Feature)
  | removeOp (f : Feature)
  | clearOp
  | reindexOp

/-- Run one feature-index operation. -/
def applyOp (s : DataLayer) (op : IndexOp) : DataLayer :=
  match op with
  | .addOp f => addFeature f s
  | .removeOp f => removeFeature f s
  | .clearOp => clear s
  | .reindexOp => reindex s

/-- Run a sequence of feature-index operations. -/
def applyOps (s : DataLayer) (ops : List IndexOp) : DataLayer :=
  ops.foldl applyOp s

/-! ### Helper lemmas: property index -/

theorem mem_indexProperty {a name : String} {idx : List String} :
    a ∈ indexProperty name idx ↔
      a ∈ idx ∨ (a = name ∧ ¬ name = "" ∧ ¬ startsWithUnderscore name = true) := by
  unfold indexProperty
  split_ifs with h1 h2 h3
  · constructor
    · exact fun h => Or.inl h
    · rintro (h | ⟨rfl, hne, _⟩)
      · exact h
      · exact absurd h1 hne
  · constructor
    · exact fun h => Or.inl h
    · rintro (h | ⟨rfl, _, hsw⟩)
      · exact h
      · exact absurd h2 hsw
  · constructor
    · exact fun h => Or.inl h
    · rintro (h | ⟨rfl, _, _⟩)
      · exact h
      · exact h3
  · simp only [List.mem_insertionSort, List.mem_append, List.mem_singleton]
    constructor
    · rintro (h | rfl)
      · exact Or.inl h
      · exact Or.inr ⟨rfl, h1, h2⟩
    · rintro (h | ⟨rfl, _, _⟩)
      · exact Or.inl h
      · exact Or.inr rfl

theorem sorted_indexProperty {name : String} {idx : List String}
    (h : List.Sorted (· ≤ ·) idx) :
    List.Sorted (· ≤ ·) (indexProperty name idx) := by
  unfold indexProperty
  split_ifs with h1 h2 h3
  · exact h
  · exact h
  · exact h
  · exact List.sorted_insertionSort _ _

theorem nodup_indexProperty {name : String} {idx : List String} (h : idx.Nodup) :
    (indexProperty name idx).Nodup := by
  unfold indexProperty
  split_ifs with h1 h2 h3
  · exact h
  · exact h
  · exact h
  · refine (List.perm_insertionSort _ _).nodup_iff.mpr ?_
    rw [List.nodup_append]
    exact ⟨h, List.nodup_singleton _, by simpa using h3⟩

theorem mem_foldl_indexProperty (props : List (String × JSValue)) (idx : List String)
    (a : String) :
    a ∈ props.foldl
        (fun acc p => if jsTypeof p.2 ≠ "object" then indexProperty p.1 acc else acc) idx ↔
      a ∈ idx ∨ (¬ a = "" ∧ ¬ startsWithUnderscore a = true ∧
        ∃ v, (a, v) ∈ props ∧ jsTypeof v ≠ "object") := by
  induction props generalizing idx with
  | nil => simp
  | cons p t ih =>
    obtain ⟨n, w⟩ := p
    simp only [List.foldl_cons]
    by_cases hp : jsTypeof w ≠ "object"
    · rw [if_pos hp, ih, mem_indexProperty]
      constructor
      · rintro ((h | ⟨rfl, hne, hsw⟩) | ⟨hne, hsw, v, hv, hs⟩)
        · exact Or.inl h
        · exact Or.inr ⟨hne, hsw, w, List.mem_cons_self _ _, hp⟩
        · exact Or.inr ⟨hne, hsw, v, List.mem_cons_of_mem _ hv, hs⟩
      · rintro (h | ⟨hne, hsw, v, hv, hs⟩)
        · exact Or.inl (Or.inl h)
        · rcases List.mem_cons.mp hv with heq | hmem
          · rcases Prod.ext_iff.mp heq with ⟨rfl, rfl⟩
            exact Or.inl (Or.inr ⟨rfl, hne, hsw⟩)
          · exact Or.inr ⟨hne, hsw, v, hmem, hs⟩
    · rw [if_neg hp]
      push_neg at hp
      rw [ih]
      constructor
      · rintro (h | ⟨hne, hsw, v, hv, hs⟩)
        · exact Or.inl h
        · exact Or.inr ⟨hne, hsw, v, List.mem_cons_of_mem _ hv, hs⟩
      · rintro (h | ⟨hne, hsw, v, hv, hs⟩)
        · exact Or.inl h
        · rcases List.mem_cons.mp hv with heq | hmem
          · rcases Prod.ext_iff.mp heq with ⟨rfl, rfl⟩
            exact absurd hp hs
          · exact Or.inr ⟨hne, hsw, v, hmem, hs⟩

theorem sorted_foldl_indexProperty (props : List (String × JSValue)) (idx : List String)
    (h : List.Sorted (· ≤ ·) idx) :
    List.Sorted (· ≤ ·) (props.foldl
      (fun acc p => if jsTypeof p.2 ≠ "object" then indexProperty p.1 acc else acc) idx) := by
  induction props generalizing idx with
  | nil => exact h
  | cons p t ih =>
    simp only [List.foldl_cons]
    by_cases hp : jsTypeof p.2 ≠ "object"
    · rw [if_pos hp]
      exact ih _ (sorted_indexProperty h)
    · rw [if_neg hp]
      exact ih _ h

theorem nodup_foldl_indexProperty (props : List (String × JSValue)) (idx : List String)
    (h : idx.Nodup) :
    (props.foldl
      (fun acc p => if jsTypeof p.2 ≠ "object" then indexProperty p.1 acc else acc) idx).Nodup := by
  induction props generalizing idx with
  | nil => exact h
  | cons p t ih =>
    simp only [List.foldl_cons]
    by_cases hp : jsTypeof p.2 ≠ "object"
    · rw [if_pos hp]
      exact ih _ (nodup_indexProperty h)
    · rw [if_neg hp]
      exact ih _ h

/-! ### Helper lemmas: the feature association list -/

theorem aset_of_not_mem {m : List (Nat × Feature)} {k : Nat} (v : Feature)
    (h : k ∉ akeys m) : aset m k v = m ++ [(k, v)] := by
  induction m with
  | nil => rfl
  | cons p t ih =>
    obtain ⟨k0, v0⟩ := p
    simp only [akeys, List.map_cons, List.mem_cons, not_or] at h
    simp only [aset, List.cons_append]
    rw [if_neg (fun he => h.1 he.symm), ih h.2]

theorem akeys_aremove (m : List (Nat × Feature)) (k : Nat) :
    akeys (aremove m k) = (akeys m).erase k := by
  induction m with
  | nil => rfl
  | cons p t ih =>
    obtain ⟨k0, v0⟩ := p
    by_cases hk : k0 = k
    · subst hk
      simp [aremove, akeys]
    · have ih2 : List.map Prod.fst (aremove t k) = (List.map Prod.fst t).erase k := ih
      simp [aremove, akeys, hk, List.erase_cons, ih2]

theorem mem_of_mem_aremove {m : List (Nat × Feature)} {k : Nat} {p : Nat × Feature}
    (h : p ∈ aremove m k) : p ∈ m := by
  induction m with
  | nil => simp [aremove] at h
  | cons q t ih =>
    obtain ⟨k0, v0⟩ := q
    by_cases hk : k0 = k
    · subst hk
      simp only [aremove, if_pos rfl] at h
      exact List.mem_cons_of_mem _ h
    · simp only [aremove, if_neg hk, List.mem_cons] at h
      rcases h with rfl | h
      · exact List.mem_cons_self _ _
      · exact List.mem_cons_of_mem _ (ih h)

/-! ### The feature-index invariant (claim C9) -/

/-- The invariant claimed for the feature index: the order sequence has no
duplicates and holds exactly the keys of the feature map. -/
def idsMatch (s : DataLayer) : Prop :=
  s._index.Nodup ∧ ∀ id, id ∈ s._index ↔ id ∈ akeys s._features

/-- Internal well-formedness of the layer's feature storage: the claimed
invariant, plus the facts JavaScript guarantees structurally — object keys
are unique, and each feature is stored under its own stamp. -/
def WFIndex (s : DataLayer) : Prop :=
  idsMatch s ∧ (akeys s._features).Nodup ∧ ∀ p ∈ s._features, Feature.stamp p.2 = p.1

/-- An operation is legal when an added feature is not already present and
a removed feature is present (the spec's `remove` is "error if absent"). -/
def LegalOp (s : DataLayer) : IndexOp → Prop
  | .addOp f => f.stamp ∉ akeys s._features
  | .removeOp f => f.stamp ∈ akeys s._features
  | .clearOp => True
  | .reindexOp => True

/-- Legality of a whole operation sequence, step by step. -/
def LegalOps (s : DataLayer) : List IndexOp → Prop
  | [] => True
  | op :: rest => LegalOp s op ∧ LegalOps (applyOp s op) rest

theorem wfIndex_addFeature {s : DataLayer} {f : Feature} (h : WFIndex s)
    (hl : f.stamp ∉ akeys s._features) : WFIndex (addFeature f s) := by
  obtain ⟨⟨hnd, hiff⟩, hknd, hst⟩ := h
  have hset := aset_of_not_mem (m := s._features) f hl
  have hnotidx : f.stamp ∉ s._index := fun hmem => hl ((hiff _).mp hmem)
  refine ⟨⟨?_, ?_⟩, ?_, ?_⟩
  · simp only [addFeature, List.nodup_append]
    exact ⟨hnd, List.nodup_singleton _, by simpa using hnotidx⟩
  · intro id
    simp only [addFeature, hset, akeys, List.map_append, List.mem_append,
      List.map_cons, List.map_nil, List.mem_singleton]
    exact or_congr (hiff id) Iff.rfl
  · simp only [addFeature, hset, akeys, List.map_append]
    rw [List.nodup_append]
    refine ⟨hknd, by simp, by simpa [akeys] using hl⟩
  · intro p hp
    simp only [addFeature, hset, List.mem_append, List.mem_singleton] at hp
    rcases hp with hp | hp
    · exact hst p hp
    · subst hp
      rfl

theorem wfIndex_removeFeature {s : DataLayer} {f : Feature} (h : WFIndex s)
    (hl : f.stamp ∈ akeys s._features) : WFIndex (removeFeature f s) := by
  obtain ⟨⟨hnd, hiff⟩, hknd, hst⟩ := h
  have hidx : f.stamp ∈ s._index := (hiff _).mpr hl
  have hsplice : spliceOutId s._index f.stamp = s._index.erase f.stamp := by
    unfold spliceOutId
    rw [if_pos hidx]
  refine ⟨⟨?_, ?_⟩, ?_, ?_⟩
  · simp only [removeFeature, hsplice]
    exact hnd.erase _
  · intro id
    simp only [removeFeature, hsplice, akeys_aremove]
    rw [hnd.mem_erase_iff, hknd.mem_erase_iff, hiff id]
  · simp only [removeFeature, akeys_aremove]
    exact hknd.erase _
  · intro p hp
    simp only [removeFeature] at hp
    exact hst p (mem_of_mem_aremove hp)

theorem wfIndex_clear {s : DataLayer} : WFIndex (clear s) := by
  unfold clear backupData
  cases s._geojson <;>
    exact ⟨⟨List.nodup_nil, by simp [akeys]⟩, by simp [akeys], by simp⟩

theorem wfIndex_reindex {s : DataLayer} (h : WFIndex s) : WFIndex (reindex s) := by
  obtain ⟨⟨hnd, hiff⟩, hknd, hst⟩ := h
  have hmapeq : (avalues s._features).map Feature.stamp = akeys s._features := by
    simp only [avalues, akeys, List.map_map]
    exact List.map_congr_left (fun p hp => hst p hp)
  have hperm : List.Perm ((sortByKey (featureSortString s.sortKey) (avalues s._features)).map
      Feature.stamp) (akeys s._features) := by
    rw [← hmapeq]
    exact (List.perm_insertionSort _ _).map _
  refine ⟨⟨?_, ?_⟩, hknd, hst⟩
  · exact (hperm.nodup_iff).mpr hknd
  · intro id
    simpa only [reindex] using hperm.mem_iff

theorem wfIndex_applyOp {s : DataLayer} {op : IndexOp} (h : WFIndex s)
    (hl : LegalOp s op) : WFIndex (applyOp s op) := by
  cases op with
  | addOp f => exact wfIndex_addFeature h hl
  | removeOp f => exact wfIndex_removeFeature h hl
  | clearOp => exact wfIndex_clear
  | reindexOp => exact wfIndex_reindex h

theorem wfIndex_applyOps {s : DataLayer} {ops : List IndexOp} (h : WFIndex s)
    (hl : LegalOps s ops) : WFIndex (applyOps s ops) := by
  induction ops generalizing s with
  | nil => exact h
  | cons op rest ih =>
    exact ih (wfIndex_applyOp h hl.1) hl.2

theorem legalOps_append_left {s : DataLayer} {pre suf : List IndexOp}
    (h : LegalOps s (pre ++ suf)) : LegalOps s pre := by
  induction pre generalizing s with
  | nil => trivial
  | cons op rest ih =>
    exact ⟨h.1, ih h.2⟩

/-! ### Helper lemmas: feature materialization -/

/-- The features `makeFeatures` materializes from a (sorted) collection,
starting from stamp `n`: one feature per known-geometry element, stamped
consecutively; unknown geometries are skipped. -/
def materialize (n : Nat) : List RawFeature → List (Nat × Feature)
  | [] => []
  | raw :: rest =>
    if knownGeometry raw.geomType then
      (n, { stamp := n, geomType := raw.geomType, properties := raw.properties }) ::
        materialize (n + 1) rest
    else materialize n rest

theorem raw_materialize (n : Nat) (l : List RawFeature) :
    (materialize n l).map (fun p => Feature.raw p.2)
      = l.filter (fun raw => knownGeometry raw.geomType) := by
  induction l generalizing n with
  | nil => rfl
  | cons raw rest ih =>
    by_cases hg : knownGeometry raw.geomType
    · have hfil : (raw :: rest).filter (fun raw => knownGeometry raw.geomType)
          = raw :: rest.filter (fun raw => knownGeometry raw.geomType) := by
        simp [List.filter_cons, hg]
      have hm : materialize n (raw :: rest)
          = (n, { stamp := n, geomType := raw.geomType, properties := raw.properties }) ::
              materialize (n + 1) rest := by
        simp [materialize, hg]
      rw [hfil, hm, List.map_cons, ih]
      rfl
    · have hfil : (raw :: rest).filter (fun raw => knownGeometry raw.geomType)
          = rest.filter (fun raw => knownGeometry raw.geomType) := by
        simp [List.filter_cons, hg]
      have hm : materialize n (raw :: rest) = materialize n rest := by
        simp [materialize, hg]
      rw [hfil, hm, ih]

theorem foldl_makeFeature_features (l : List RawFeature) (s : DataLayer)
    (hb : ∀ k ∈ akeys s._features, k < s.nextStamp) :
    (l.foldl (fun acc raw => makeFeature raw acc) s)._features
      = s._features ++ materialize s.nextStamp l := by
  induction l generalizing s with
  | nil => simp [materialize]
  | cons raw rest ih =>
    simp only [List.foldl_cons]
    by_cases hg : knownGeometry raw.geomType
    · have hfresh : s.nextStamp ∉ akeys s._features :=
        fun hmem => lt_irrefl _ (hb _ hmem)
      have hstep : makeFeature raw s =
          addFeature { stamp := s.nextStamp, geomType := raw.geomType,
                       properties := raw.properties }
            { s with nextStamp := s.nextStamp + 1 } := by
        unfold makeFeature
        rw [if_pos hg]
      rw [hstep]
      have hset : aset s._features s.nextStamp
          { stamp := s.nextStamp, geomType := raw.geomType, properties := raw.properties }
          = s._features ++ [(s.nextStamp,
              { stamp := s.nextStamp, geomType := raw.geomType,
                properties := raw.properties })] :=
        aset_of_not_mem _ hfresh
      rw [ih]
      · simp only [addFeature, hset, materialize, if_pos hg, List.append_assoc,
          List.singleton_append]
      · intro k hk
        simp only [addFeature, hset, akeys, List.map_append, List.mem_append,
          List.map_cons, List.map_nil, List.mem_singleton] at hk
        show k < s.nextStamp + 1
        rcases hk with hk | hk
        · exact Nat.lt_succ_of_lt (hb _ hk)
        · subst hk
          exact Nat.lt_succ_self _
    · have hstep : makeFeature raw s = s := by
        unfold makeFeature
        rw [if_neg hg]
      rw [hstep, ih _ hb]
      simp [materialize, hg]

theorem makeFeatures_features (g : GeoJSON) (s : DataLayer)
    (hb : ∀ k ∈ akeys s._features, k < s.nextStamp) :
    (makeFeatures g s)._features
      = s._features ++ materialize s.nextStamp (sortByKey (rawSortString s.sortKey) g.features) :=
  foldl_makeFeature_features _ s hb

/-- Feature replacement: materializing a collection into a layer whose
feature map is empty yields, up to the sort permutation, exactly the
known-geometry elements of the collection. -/
theorem makeFeatures_raw_perm (g : GeoJSON) (s : DataLayer) (hempty : s._features = []) :
    List.Perm ((makeFeatures g s)._features.map (fun p => Feature.raw p.2))
      (g.features.filter (fun raw => knownGeometry raw.geomType)) := by
  rw [makeFeatures_features g s (by simp [hempty, akeys]), hempty, List.nil_append,
    raw_materialize]
  exact (List.perm_insertionSort _ _).filter _

/-! ### Helper lemmas: state projections -/

theorem clear_proj (s : DataLayer) :
    (clear s)._features = [] ∧ (clear s)._index = [] ∧
    (clear s).nextStamp = s.nextStamp ∧ (clear s).sortKey = s.sortKey ∧
    (clear s)._geojson = none ∧ (clear s).options = s.options ∧
    (clear s)._referenceVersion = s._referenceVersion ∧
    (clear s)._isDirty = s._isDirty ∧ (clear s)._isDeleted = s._isDeleted ∧
    (clear s)._dataloaded = s._dataloaded ∧ (clear s)._loaded = s._loaded := by
  unfold clear backupData
  cases s._geojson <;> simp

theorem foldl_makeFeature_proj (l : List RawFeature) (s : DataLayer) :
    (l.foldl (fun acc raw => makeFeature raw acc) s).options = s.options ∧
    (l.foldl (fun acc raw => makeFeature raw acc) s)._referenceVersion = s._referenceVersion ∧
    (l.foldl (fun acc raw => makeFeature raw acc) s)._geojson = s._geojson ∧
    (l.foldl (fun acc raw => makeFeature raw acc) s)._geojson_bk = s._geojson_bk ∧
    (l.foldl (fun acc raw => makeFeature raw acc) s)._isDirty = s._isDirty ∧
    (l.foldl (fun acc raw => makeFeature raw acc) s)._isDeleted = s._isDeleted ∧
    (l.foldl (fun acc raw => makeFeature raw acc) s)._loaded = s._loaded ∧
    (l.foldl (fun acc raw => makeFeature raw acc) s)._dataloaded = s._dataloaded ∧
    (l.foldl (fun acc raw => makeFeature raw acc) s)._backupOptions = s._backupOptions := by
  induction l generalizing s with
  | nil => exact ⟨rfl, rfl, rfl, rfl, rfl, rfl, rfl, rfl, rfl⟩
  | cons raw rest ih =>
    simp only [List.foldl_cons]
    have hstep : ((makeFeature raw s).options = s.options) ∧
        ((makeFeature raw s)._referenceVersion = s._referenceVersion) ∧
        ((makeFeature raw s)._geojson = s._geojson) ∧
        ((makeFeature raw s)._geojson_bk = s._geojson_bk) ∧
        ((makeFeature raw s)._isDirty = s._isDirty) ∧
        ((makeFeature raw s)._isDeleted = s._isDeleted) ∧
        ((makeFeature raw s)._loaded = s._loaded) ∧
        ((makeFeature raw s)._dataloaded = s._dataloaded) ∧
        ((makeFeature raw s)._backupOptions = s._backupOptions) := by
      unfold makeFeature addFeature
      by_cases hg : knownGeometry raw.geomType <;> simp [hg]
    obtain ⟨h1, h2, h3, h4, h5, h6, h7, h8, h9⟩ := ih (makeFeature raw s)
    obtain ⟨g1, g2, g3, g4, g5, g6, g7, g8, g9⟩ := hstep
    exact ⟨h1.trans g1, h2.trans g2, h3.trans g3, h4.trans g4, h5.trans g5,
      h6.trans g6, h7.trans g7, h8.trans g8, h9.trans g9⟩

theorem fromGeoJSON_proj (g : GeoJSON) (b : Bool) (s : DataLayer) :
    (fromGeoJSON g b s)._geojson = some g ∧
    (fromGeoJSON g b s)._dataloaded = true ∧
    (fromGeoJSON g b s)._features = (makeFeatures g s)._features ∧
    (fromGeoJSON g b s).options = s.options ∧
    (fromGeoJSON g b s)._referenceVersion = s._referenceVersion ∧
    (fromGeoJSON g b s)._geojson_bk = s._geojson_bk ∧
    (fromGeoJSON g b s)._isDirty = s._isDirty ∧
    (fromGeoJSON g b s)._isDeleted = s._isDeleted := by
  obtain ⟨h1, h2, h3, h4, h5, h6, h7, h8, h9⟩ := foldl_makeFeature_proj
    (sortByKey (rawSortString s.sortKey) g.features) s
  unfold fromGeoJSON addData makeFeatures
  exact ⟨rfl, rfl, rfl, h1, h2, h4, h5, h6⟩

/-! ## Claim C7 — property indexing -/

/-- The feature of the claim's example:
`{"name": "A", "geo": {"x": 1}, "_internal": 2}`. -/
def exampleFeature : Feature :=
  { stamp := 0, geomType := .point,
    properties := [("name", .str "A"), ("geo", .obj [("x", .num 1)]), ("_internal", .num 2)] }

/-- C7 counterexample: the claim says a feature property is indexed exactly
when its value is a scalar and its name does not start with the reserved
prefix. A property named by the empty string has a scalar value and does
not start with an underscore, yet `indexProperty` drops it at the falsy
guard `if (!name) return`, so nothing is indexed — the claimed "exactly"
fails. -/
theorem c7_counterexample :
    jsTypeof (JSValue.str "A") = "string" ∧
    startsWithUnderscore "" = false ∧
    indexProperties
      { stamp := 0, geomType := GeomType.point, properties := [("", JSValue.str "A")] }
      [] = [] :=
  ⟨rfl, rfl, rfl⟩

/-- C7 (amended): adding a feature indexes exactly those of its property
names that are NON-EMPTY, whose value is a scalar (string/number/boolean —
JS `typeof` distinct from `"object"`, which also covers `null` and arrays),
and that do not start with the reserved prefix underscore; the claim's
example feature contributes exactly `"name"`; and the property index stays
duplicate-free and sorted after every add. -/
theorem c7_property_indexing (f : Feature) (idx : List String) (a : String)
    (hsorted : List.Sorted (· ≤ ·) idx) (hnodup : idx.Nodup) :
    (a ∈ indexProperties f idx ↔
      a ∈ idx ∨ (¬ a = "" ∧ ¬ startsWithUnderscore a = true ∧
        ∃ v, (a, v) ∈ f.properties ∧ jsTypeof v ≠ "object")) ∧
    List.Sorted (· ≤ ·) (indexProperties f idx) ∧
    (indexProperties f idx).Nodup ∧
    indexProperties exampleFeature [] = ["name"] :=
  ⟨mem_foldl_indexProperty f.properties idx a,
   sorted_foldl_indexProperty f.properties idx hsorted,
   nodup_foldl_indexProperty f.properties idx hnodup,
   rfl⟩

/-- Witness for C7 at a concrete input: the example feature over the empty
index. -/
theorem c7_property_indexing_witness :
    ("name" ∈ indexProperties exampleFeature [] ↔
      "name" ∈ ([] : List String) ∨ (¬ "name" = "" ∧ ¬ startsWithUnderscore "name" = true ∧
        ∃ v, ("name", v) ∈ exampleFeature.properties ∧ jsTypeof v ≠ "object")) ∧
    List.Sorted (· ≤ ·) (indexProperties exampleFeature []) ∧
    (indexProperties exampleFeature []).Nodup ∧
    indexProperties exampleFeature [] = ["name"] :=
  c7_property_indexing exampleFeature [] "name" List.sorted_nil List.nodup_nil

/-! ## Claim C9 — order sequence vs feature map -/

/-- A first demo feature. -/
def featureOne : Feature := { stamp := 1, geomType := .point }

/-- A second demo feature, not added to the demo layer. -/
def featureTwo : Feature := { stamp := 2, geomType := .point }

/-- C9 counterexample: the claim quantifies over EVERY sequence of add and
remove operations. Removing a feature that is not in the layer runs
`this._index.splice(this._index.indexOf(id), 1)` with `indexOf` equal to
`-1`, and `splice(-1, 1)` removes the LAST element of the order sequence
while `delete this._features[id]` removes nothing — after `add f1; remove
f2` the order sequence is empty but the map still holds the key `1`. -/
theorem c9_counterexample :
    ¬ ∀ id,
      (id ∈ (applyOps {} [IndexOp.addOp featureOne, IndexOp.removeOp featureTwo])._index ↔
       id ∈ akeys (applyOps {} [IndexOp.addOp featureOne,
         IndexOp.removeOp featureTwo])._features) := by
  intro h
  have hidx : (applyOps {} [IndexOp.addOp featureOne,
      IndexOp.removeOp featureTwo])._index = [] := rfl
  have hkeys : akeys (applyOps {} [IndexOp.addOp featureOne,
      IndexOp.removeOp featureTwo])._features = [1] := rfl
  have h1 := (h 1).mpr (by rw [hkeys]; exact List.mem_singleton_self 1)
  rw [hidx] at h1
  exact List.not_mem_nil _ h1

/-- C9 (amended): for every sequence of add/remove/clear/reindex operations
in which each added feature is not already present and each removed feature
is present (the spec's `remove` is "error if absent"), starting from a
well-formed layer, after every prefix of the sequence the order sequence is
duplicate-free and its ids are exactly the keys of the feature map. -/
theorem c9_index_map_invariant (s : DataLayer) (ops pre suf : List IndexOp)
    (hwf : WFIndex s) (hl : LegalOps s ops) (hsplit : pre ++ suf = ops) :
    (applyOps s pre)._index.Nodup ∧
    ∀ id, id ∈ (applyOps s pre)._index ↔ id ∈ akeys (applyOps s pre)._features := by
  subst hsplit
  exact (wfIndex_applyOps hwf (legalOps_append_left hl)).1

/-- Witness for C9 at a concrete input: the sequence `add f1; clear` on the
empty layer, observed after its first operation. -/
theorem c9_index_map_invariant_witness :
    (applyOps {} [IndexOp.addOp featureOne])._index.Nodup ∧
    ∀ id, id ∈ (applyOps {} [IndexOp.addOp featureOne])._index ↔
      id ∈ akeys (applyOps {} [IndexOp.addOp featureOne])._features :=
  c9_index_map_invariant {} [IndexOp.addOp featureOne, IndexOp.clearOp]
    [IndexOp.addOp featureOne] [IndexOp.clearOp]
    ⟨⟨List.nodup_nil, fun id => by simp [akeys]⟩, by simp [akeys], by simp⟩
    ⟨by simp [LegalOp, akeys], trivial, trivial⟩
    rfl

/-! ## Claim C8 — lookup by position -/

/-- A feature stored in the demo layers below. -/
def demoFeature : Feature := { stamp := 7, geomType := .point }

/-- A one-feature layer used to evaluate `getFeatureByIndex`. -/
def demoLayer : DataLayer := { _index := [7], _features := [(7, demoFeature)] }

/-- C8 counterexample: the claim says every out-of-range position fails
with an `IndexError`. The source has no such error: `this._index[index]`
on an out-of-range position is `undefined` and `this._features[undefined]`
is again `undefined`, so the call SILENTLY returns the empty result
(`none`) — here at position `5` of a one-element layer. -/
theorem c8_counterexample :
    demoLayer._index.length = 1 ∧ getFeatureByIndex 5 demoLayer = none :=
  ⟨rfl, rfl⟩

/-- C8 (amended): position `-1` resolves to the last element of the order
sequence, and every other out-of-range position silently returns no
feature (`undefined`), not an error. -/
theorem c8_by_index (s : DataLayer) (ids : List Nat) (id : Nat) (i : Int)
    (hne : s._index = ids ++ [id]) :
    getFeatureByIndex (-1) s = alookup s._features id ∧
    ((i < -1 ∨ (s._index.length : Int) ≤ i) → getFeatureByIndex i s = none) := by
  constructor
  · simp only [getFeatureByIndex, hne]
    norm_num [List.length_append]
  · intro hout
    have hlenpos : 1 ≤ s._index.length := by
      rw [hne]
      simp
    have hne1 : ¬ (i = -1) := by
      rcases hout with h | h
      · omega
      · omega
    simp only [getFeatureByIndex, if_neg hne1]
    rcases hout with h | h
    · rw [if_neg (by omega : ¬ (0 : Int) ≤ i)]
      rfl
    · by_cases h0 : (0 : Int) ≤ i
      · rw [if_pos h0]
        have hge : s._index.length ≤ i.toNat := by omega
        rw [List.get?_eq_none.mpr hge]
        rfl
      · rw [if_neg h0]
        rfl

/-- Witness for C8 at a concrete input: the one-feature demo layer, with
the out-of-range position `9`. -/
theorem c8_by_index_witness :
    getFeatureByIndex (-1) demoLayer = alookup demoLayer._features 7 ∧
    getFeatureByIndex 9 demoLayer = none :=
  ⟨(c8_by_index demoLayer [] 7 9 rfl).1,
   (c8_by_index demoLayer [] 7 9 rfl).2 (Or.inr (by decide))⟩

/-! ## Claim C5 — remote-fetch guards -/

/-- C5: `fetchRemoteData` issues no request — and changes nothing — when
the layer is not a remote-mirror layer, or when it is not visible, or when
the remote source is static (`dynamic = false`), the data is already
loaded and `force` is not set; and a visible static remote-mirror layer
that is already loaded DOES issue exactly one request when `force = true`. -/
theorem c5_fetch_remote_guards (s : DataLayer) (force : Bool) (o : RemoteOutcome) :
    (isRemoteLayer s = false → fetchRemoteData force o s = (s, [])) ∧
    (isVisible s = false → fetchRemoteData force o s = (s, [])) ∧
    (s.options.remoteData.dynamic = false → hasDataLoaded s = true → force = false →
      fetchRemoteData force o s = (s, [])) ∧
    (isRemoteLayer s = true → isVisible s = true → s.options.remoteData.dynamic = false →
      hasDataLoaded s = true → force = true →
      (fetchRemoteData force o s).2.length = 1) := by
  refine ⟨?_, ?_, ?_, ?_⟩
  · intro h
    unfold fetchRemoteData
    rw [if_pos (by simp [h])]
  · intro h
    unfold fetchRemoteData
    by_cases h1 : (!isRemoteLayer s) = true
    · rw [if_pos h1]
    · rw [if_neg h1]
      by_cases h2 : (!hasDynamicData s && hasDataLoaded s && !force) = true
      · rw [if_pos h2]
      · rw [if_neg h2, if_pos (by simp [h])]
  · intro h1 h2 h3
    subst h3
    unfold fetchRemoteData
    by_cases ha : (!isRemoteLayer s) = true
    · rw [if_pos ha]
    · rw [if_neg ha, if_pos (by simp [hasDynamicData, h1, h2])]
  · intro h1 h2 h3 h4 h5
    subst h5
    cases o <;> simp [fetchRemoteData, hasDynamicData, h1, h2, h3, h4]

/-- A hidden remote-mirror layer with static, already-loaded data. -/
def hiddenRemoteLayer : DataLayer :=
  { options := { id := "r1", remoteData :=
      { url := some "https://example.org/data", format := some "geojson", dynamic := false } },
    visibleOnMap := false, _dataloaded := true }

/-- Witness for C5 at a concrete input: the hidden remote layer never
fetches. -/
theorem c5_fetch_remote_guards_witness :
    fetchRemoteData false RemoteOutcome.noResponse hiddenRemoteLayer = (hiddenRemoteLayer, []) :=
  (c5_fetch_remote_guards hiddenRemoteLayer false RemoteOutcome.noResponse).2.1 rfl

/-! ## Claim C10 — a failed load wedges the loading flag -/

/-- Iterate `fetchData` over a list of transport outcomes, concatenating
the issued requests. -/
def fetchDataMany (outs : List (GetOutcome × RemoteOutcome)) (s : DataLayer) :
    DataLayer × List Action :=
  match outs with
  | [] => (s, [])
  | (o, r) :: rest =>
    let p := fetchData o r s
    let q := fetchDataMany rest p.1
    (q.1, p.2 ++ q.2)

theorem fetchData_of_loading {s : DataLayer} (h : s._loading = true)
    (o : GetOutcome) (r : RemoteOutcome) : fetchData o r s = (s, []) := by
  unfold fetchData
  by_cases hc : createdOnServer s = true
  · rw [if_neg (by simp [hc]), if_pos h]
  · rw [if_pos (by simp [Bool.eq_false_iff.mpr hc])]

/-- C10: when the read request of `fetchData` fails, the `if (!error)`
block — which contains the only `this._loading = false` — is skipped, so
the in-flight flag stays `true`; exactly one request was issued, and every
later `fetchData` call, whatever its outcome, returns at the in-flight
guard: no request, no state change, forever. -/
theorem c10_loading_flag_leak (s : DataLayer) (r : RemoteOutcome)
    (hcs : createdOnServer s = true) (hnl : s._loading = false) :
    (fetchData GetOutcome.failure r s).1._loading = true ∧
    (fetchData GetOutcome.failure r s).2 = [Action.getRequest (dataUrl s)] ∧
    ∀ outs, fetchDataMany outs (fetchData GetOutcome.failure r s).1
      = ((fetchData GetOutcome.failure r s).1, []) := by
  have hfd : fetchData GetOutcome.failure r s
      = ({ s with _loading := true }, [Action.getRequest (dataUrl s)]) := by
    unfold fetchData
    rw [if_neg (by simp [hcs]), if_neg (by simp [hnl])]
  refine ⟨by rw [hfd], by rw [hfd], ?_⟩
  intro outs
  induction outs with
  | nil => rfl
  | cons p rest ih =>
    obtain ⟨o, rr⟩ := p
    have hload : (fetchData GetOutcome.failure r s).1._loading = true := by rw [hfd]
    simp only [fetchDataMany, fetchData_of_loading hload, ih, List.nil_append]

/-- A server-persisted layer that has not started loading. -/
def serverLayer : DataLayer := { options := { id := "abc" }, _referenceVersion := some "v1" }

/-- Witness for C10 at a concrete input: the persisted demo layer after one
failed load. -/
theorem c10_loading_flag_leak_witness :
    (fetchData GetOutcome.failure RemoteOutcome.noResponse serverLayer).1._loading = true ∧
    (fetchData GetOutcome.failure RemoteOutcome.noResponse serverLayer).2
      = [Action.getRequest (dataUrl serverLayer)] ∧
    ∀ outs, fetchDataMany outs
        (fetchData GetOutcome.failure RemoteOutcome.noResponse serverLayer).1
      = ((fetchData GetOutcome.failure RemoteOutcome.noResponse serverLayer).1, []) :=
  c10_loading_flag_leak serverLayer RemoteOutcome.noResponse rfl rfl

/-! ## Claim C3 — when is save a no-op -/

/-- A freshly created local layer: never persisted, nothing loaded, dirty
from construction. -/
def freshLocalLayer : DataLayer := { options := { id := "n1" }, _isDirty := true }

/-- C3 counterexample: the claim says a non-deleted layer with
`dataLoaded = false` saves nothing. But the guard in the source is
`isLoaded()` (metadata known: `!createdOnServer || _loaded`), not
`hasDataLoaded()`: a freshly created local layer has `dataLoaded = false`
yet its save issues one POST (this is how a layer is saved for the first
time). -/
theorem c3_counterexample :
    hasDataLoaded freshLocalLayer = false ∧
    freshLocalLayer._isDeleted = false ∧
    (save (PostOutcome.failure none) freshLocalLayer).2.1.length = 1 :=
  ⟨rfl, rfl, rfl⟩

/-- C3 (amended): for every layer that is not deleted and whose METADATA
has not been loaded (`isLoaded()` false, i.e. created on server with
`_loaded = false`), `save()` performs no network request, mutates no layer
state, and returns the indeterminate result (`undefined`). -/
theorem c3_noop_when_not_loaded (s : DataLayer) (o : PostOutcome)
    (hdel : s._isDeleted = false) (hcs : createdOnServer s = true)
    (hld : s._loaded = false) :
    save o s = (s, [], none) := by
  unfold save
  rw [if_neg (by simp [hdel]), if_pos (by simp [isLoaded, hcs, hld])]

/-- A persisted layer whose metadata was never fetched. -/
def staleLayer : DataLayer := { options := { id := "s1" }, _referenceVersion := some "v7" }

/-- Witness for C3 at a concrete input: saving the never-loaded persisted
layer does nothing. -/
theorem c3_noop_when_not_loaded_witness :
    save (PostOutcome.failure none) staleLayer = (staleLayer, [], none) :=
  c3_noop_when_not_loaded staleLayer (PostOutcome.failure none) rfl rfl rfl

/-! ## Claim C4 — the delete path -/

/-- C4: saving a deleted layer performs the tombstone path: with no server
copy, no request at all; with a server copy, exactly one delete request
carrying no conditional version token; in both cases the layer is removed
from its owner's `datalayers` collection and the result is success — and
the whole outcome is independent of the server's response. -/
theorem c4_delete_path (s : DataLayer) (o o2 : PostOutcome) (hdel : s._isDeleted = true) :
    (createdOnServer s = false →
      (save o s).2.1 = [] ∧ (save o s).1.inDatalayersMap = false ∧
      (save o s).2.2 = some true) ∧
    (createdOnServer s = true →
      (save o s).2.1 = [Action.deleteRequest (deleteUrl s) none] ∧
      (save o s).1.inDatalayersMap = false ∧ (save o s).2.2 = some true) ∧
    save o s = save o2 s := by
  have hsd : ∀ o3, save o3 s = saveDelete o3 s := by
    intro o3
    unfold save
    rw [if_pos hdel]
  refine ⟨?_, ?_, ?_⟩
  · intro hcs
    simp only [hsd]
    unfold saveDelete
    rw [if_neg (by simp [hcs])]
    exact ⟨rfl, rfl, rfl⟩
  · intro hcs
    simp only [hsd]
    unfold saveDelete
    rw [if_pos hcs]
    exact ⟨rfl, rfl, rfl⟩
  · rw [hsd o, hsd o2]
    rfl

/-- A deleted, persisted, registered layer. -/
def deletedServerLayer : DataLayer :=
  { options := { id := "d1" }, _referenceVersion := some "v3", _isDeleted := true,
    _isDirty := true, inDatalayersMap := true, inDatalayersIndex := true }

/-- Witness for C4 at a concrete input: the deleted persisted layer issues
exactly one unconditional delete request and is dropped from the owning
collection. -/
theorem c4_delete_path_witness :
    (save (PostOutcome.failure none) deletedServerLayer).2.1
      = [Action.deleteRequest (deleteUrl deletedServerLayer) none] ∧
    (save (PostOutcome.failure none) deletedServerLayer).1.inDatalayersMap = false ∧
    (save (PostOutcome.failure none) deletedServerLayer).2.2 = some true :=
  (c4_delete_path deletedServerLayer (PostOutcome.failure none)
    (PostOutcome.success {} {}) rfl).2.1 rfl

/-! ## Claim C6 — remote fetch and the previous feature set -/

/-- A visible dynamic remote-mirror layer currently holding one feature. -/
def liveRemoteLayer : DataLayer :=
  { options := { id := "r2", remoteData :=
      { url := some "https://example.org/live", format := some "geojson", dynamic := true } },
    visibleOnMap := true, _dataloaded := true,
    _index := [7], _features := [(7, demoFeature)] }

/-- C6 counterexample: the claim says ANY failure — including a parse or
format failure of the response body — leaves the previous feature set
untouched. But the source calls `this.clear()` as soon as `response.ok`
holds, BEFORE parsing; when `formatter.parse` then rejects, the `.then`
replacement never runs and the previous feature set is gone: from one
stored feature to none. -/
theorem c6_counterexample :
    liveRemoteLayer._features ≠ [] ∧
    (fetchRemoteData false RemoteOutcome.okParseFailed liveRemoteLayer).1._features = [] :=
  ⟨by simp [liveRemoteLayer], rfl⟩

/-- C6 (amended): on a remote fetch that passes the guards, a network
error or a non-OK status leaves the whole layer state untouched; an OK
response first CLEARS the feature set, so a subsequent parse failure
leaves it cleared (the previous features are lost, not preserved), and a
successful parse replaces it with exactly the known-geometry elements of
the parsed collection. -/
theorem c6_fetch_failure_behavior (s : DataLayer) (force : Bool)
    (hrem : isRemoteLayer s = true) (hvis : isVisible s = true)
    (hgo : (!hasDynamicData s && hasDataLoaded s && !force) = false) :
    (fetchRemoteData force RemoteOutcome.noResponse s).1 = s ∧
    (∀ st, (fetchRemoteData force (RemoteOutcome.notOk st) s).1 = s) ∧
    (fetchRemoteData force RemoteOutcome.okParseFailed s).1._features = [] ∧
    (fetchRemoteData force RemoteOutcome.okParseFailed s).1._index = [] ∧
    (∀ g, List.Perm
      ((fetchRemoteData force (RemoteOutcome.okParsed g) s).1._features.map
        (fun p => Feature.raw p.2))
      (g.features.filter (fun raw => knownGeometry raw.geomType))) := by
  have hred : ∀ o : RemoteOutcome, (fetchRemoteData force o s).1 =
      match o with
      | RemoteOutcome.noResponse => s
      | RemoteOutcome.notOk _ => s
      | RemoteOutcome.okParseFailed => clear s
      | RemoteOutcome.okParsed g => fromGeoJSON g true (clear s) := by
    intro o
    unfold fetchRemoteData
    rw [if_neg (by simp [hrem]), if_neg (by simp [hgo]), if_neg (by simp [hvis])]
    cases o <;> rfl
  refine ⟨hred RemoteOutcome.noResponse, fun st => hred (RemoteOutcome.notOk st), ?_, ?_, ?_⟩
  · rw [hred RemoteOutcome.okParseFailed]
    exact (clear_proj s).1
  · rw [hred RemoteOutcome.okParseFailed]
    exact (clear_proj s).2.1
  · intro g
    rw [hred (RemoteOutcome.okParsed g), (fromGeoJSON_proj g true (clear s)).2.2.1]
    exact makeFeatures_raw_perm g (clear s) (clear_proj s).1

/-- Witness for C6 at a concrete input: a network failure on the live
remote layer changes nothing. -/
theorem c6_fetch_failure_behavior_witness :
    (fetchRemoteData false RemoteOutcome.noResponse liveRemoteLayer).1 = liveRemoteLayer :=
  (c6_fetch_failure_behavior liveRemoteLayer false rfl rfl rfl).1

/-! ## Claim C1 — the conflict (412) path -/

/-- The success branch of `_trySave`, normalized to one explicit state so
its projections can be read off. -/
theorem trySave_success_eq (url : String) (hdr : Option String) (body : FormData)
    (d : SaveData) (resp : Response) (s : DataLayer) :
    _trySave url hdr body (PostOutcome.success d resp) s =
      (let s1 := match d.geojson with
        | some g => fromGeoJSON g true (clear s)
        | none => s
      let s2 := updateOptions { d.optionsPatch with id := none } s1
      ({ s2 with _referenceVersion := resp.versionHeader,
                 _backupOptions := s2.options,
                 _geojson_bk := s2._geojson,
                 inDatalayersMap := true, inDatalayersIndex := true,
                 _loaded := true },
       [Action.postRequest url hdr body, Action.syncUpdate resp.versionHeader],
       some true)) := by
  unfold _trySave setReferenceVersion backupOptions backupData connectToMap
  rfl

/-- The 412 branch of `_trySave`: the state is returned untouched, the
conflict alert carries the retry data, the result is `undefined`. -/
theorem trySave_conflict_eq (url : String) (hdr : Option String) (body : FormData)
    (resp : Response) (s : DataLayer) (h412 : resp.status = 412) :
    _trySave url hdr body (PostOutcome.failure (some resp)) s
      = (s, [Action.postRequest url hdr body, Action.conflictAlert url none body], none) := by
  simp [_trySave, h412]

/-- The retry closure after a successful resubmission: dirty cleared, the
new version token captured, and the save-everything sweep triggered. -/
theorem conflictRetry_success (url : String) (body : FormData) (d : SaveData)
    (resp : Response) (sx : DataLayer) :
    (conflictRetry url body (PostOutcome.success d resp) sx).1._isDirty = false ∧
    (conflictRetry url body (PostOutcome.success d resp) sx).1._referenceVersion
      = resp.versionHeader ∧
    Action.saveAllTrigger ∈ (conflictRetry url body (PostOutcome.success d resp) sx).2 := by
  unfold conflictRetry
  rw [trySave_success_eq]
  simp [setDirtyFalse]

/-- C1: a save answered with status 412 leaves `dirty` and
`referenceVersion` untouched (in fact the whole state except the remembered
snapshot), reports no success, and emits the conflict alert whose retry
resubmits the SAME body to the same url with NO conditional version
header; and invoking that retry against a success outcome clears `dirty`,
installs the new version token, and triggers the coordinator's
save-everything sweep. -/
theorem c1_conflict_and_retry (s : DataLayer) (resp resp2 : Response) (d2 : SaveData)
    (hdel : s._isDeleted = false) (hld : isLoaded s = true) (h412 : resp.status = 412) :
    (save (PostOutcome.failure (some resp)) s).1._isDirty = s._isDirty ∧
    (save (PostOutcome.failure (some resp)) s).1._referenceVersion = s._referenceVersion ∧
    (save (PostOutcome.failure (some resp)) s).2.2 = none ∧
    (save (PostOutcome.failure (some resp)) s).2.1
      = [Action.postRequest (saveUrl s) s._referenceVersion (saveBody s),
         Action.conflictAlert (saveUrl s) none (saveBody s)] ∧
    ((conflictRetry (saveUrl s) (saveBody s) (PostOutcome.success d2 resp2)
        (save (PostOutcome.failure (some resp)) s).1).1._isDirty = false ∧
     (conflictRetry (saveUrl s) (saveBody s) (PostOutcome.success d2 resp2)
        (save (PostOutcome.failure (some resp)) s).1).1._referenceVersion
       = resp2.versionHeader ∧
     Action.saveAllTrigger ∈ (conflictRetry (saveUrl s) (saveBody s)
        (PostOutcome.success d2 resp2) (save (PostOutcome.failure (some resp)) s).1).2) := by
  have hts := trySave_conflict_eq (saveUrl s) s._referenceVersion (saveBody s) resp s h412
  have hsv : save (PostOutcome.failure (some resp)) s
      = ({ s with _geojson := some (umapGeoJSON s) },
         [Action.postRequest (saveUrl s) s._referenceVersion (saveBody s),
          Action.conflictAlert (saveUrl s) none (saveBody s)], none) := by
    simp only [save, hdel, hld]
    rw [hts]
    simp [hdel]
  refine ⟨by rw [hsv], by rw [hsv], by rw [hsv], by rw [hsv], ?_⟩
  exact conflictRetry_success (saveUrl s) (saveBody s) d2 resp2 _

/-- A loaded, persisted, dirty layer about to hit a conflict. -/
def conflictedLayer : DataLayer :=
  { options := { id := "c1" }, _referenceVersion := some "v5", _loaded := true,
    _dataloaded := true, _isDirty := true, inDatalayersMap := true,
    inDatalayersIndex := true }

/-- Witness for C1 at a concrete input: the 412 response on the demo layer
keeps it dirty with its old token; the retry against a success response
carrying token `v6` cleans it up and sweeps. -/
theorem c1_conflict_and_retry_witness :
    (save (PostOutcome.failure (some { status := 412 })) conflictedLayer).1._isDirty
      = conflictedLayer._isDirty ∧
    (save (PostOutcome.failure (some { status := 412 })) conflictedLayer).1._referenceVersion
      = conflictedLayer._referenceVersion ∧
    (save (PostOutcome.failure (some { status := 412 })) conflictedLayer).2.2 = none ∧
    (save (PostOutcome.failure (some { status := 412 })) conflictedLayer).2.1
      = [Action.postRequest (saveUrl conflictedLayer) conflictedLayer._referenceVersion
           (saveBody conflictedLayer),
         Action.conflictAlert (saveUrl conflictedLayer) none (saveBody conflictedLayer)] ∧
    ((conflictRetry (saveUrl conflictedLayer) (saveBody conflictedLayer)
        (PostOutcome.success {} { status := 200, versionHeader := some "v6" })
        (save (PostOutcome.failure (some { status := 412 })) conflictedLayer).1).1._isDirty
      = false ∧
     (conflictRetry (saveUrl conflictedLayer) (saveBody conflictedLayer)
        (PostOutcome.success {} { status := 200, versionHeader := some "v6" })
        (save (PostOutcome.failure (some { status := 412 })) conflictedLayer).1).1._referenceVersion
      = some "v6" ∧
     Action.saveAllTrigger ∈ (conflictRetry (saveUrl conflictedLayer) (saveBody conflictedLayer)
        (PostOutcome.success {} { status := 200, versionHeader := some "v6" })
        (save (PostOutcome.failure (some { status := 412 })) conflictedLayer).1).2) :=
  c1_conflict_and_retry conflictedLayer { status := 412 }
    { status := 200, versionHeader := some "v6" } {} rfl rfl rfl

/-! ## Claim C2 — the success path of a first save -/

/-- The success branch of `save`, normalized to one explicit state. -/
theorem save_success_eq (s : DataLayer) (d : SaveData) (resp : Response)
    (hdel : s._isDeleted = false) (hld : isLoaded s = true) :
    save (PostOutcome.success d resp) s =
      (let s1 := match d.geojson with
        | some g => fromGeoJSON g true (clear s)
        | none => s
      let s2 := updateOptions { d.optionsPatch with id := none } s1
      ({ s2 with _referenceVersion := resp.versionHeader,
                 _backupOptions := s2.options,
                 _geojson_bk := s2._geojson,
                 inDatalayersMap := true, inDatalayersIndex := true,
                 _loaded := true, _geojson := some (umapGeoJSON s) },
       [Action.postRequest (saveUrl s) s._referenceVersion (saveBody s),
        Action.syncUpdate resp.versionHeader],
       some true)) := by
  have hts := trySave_success_eq (saveUrl s) s._referenceVersion (saveBody s) d resp s
  simp only [save, hdel, hld]
  rw [hts]
  cases hg : d.geojson <;> simp [hg, hdel]

/-- The managed success branch: the save-manager dirty clearing
(spec-modelled, see `managedSave`) on top of `save_success_eq`. -/
theorem managedSave_success_eq (s : DataLayer) (d : SaveData) (resp : Response)
    (hdel : s._isDeleted = false) (hld : isLoaded s = true) :
    managedSave (PostOutcome.success d resp) s =
      (let s1 := match d.geojson with
        | some g => fromGeoJSON g true (clear s)
        | none => s
      let s2 := updateOptions { d.optionsPatch with id := none } s1
      ({ s2 with _referenceVersion := resp.versionHeader,
                 _backupOptions := s2.options,
                 _geojson_bk := s2._geojson,
                 inDatalayersMap := true, inDatalayersIndex := true,
                 _loaded := true, _geojson := some (umapGeoJSON s),
                 _isDirty := false, _isDeleted := false },
       [Action.postRequest (saveUrl s) s._referenceVersion (saveBody s),
        Action.syncUpdate resp.versionHeader],
       some true)) := by
  unfold managedSave
  rw [save_success_eq s d resp hdel hld]
  cases hg : d.geojson <;> simp [hg, setDirtyFalse]

/-- C2: a layer with no `referenceVersion` (hence saveable without a
conditional header) that is not deleted, saved once against a success
response whose version-token header is a non-empty `v`: the result is
success, `referenceVersion` becomes exactly `some v` (non-empty), `dirty`
is cleared; and when the response body carries a feature collection, the
local feature set is replaced by its (known-geometry) features and the
options/data backups used by `reset` are updated to the new options and
the received collection. -/
theorem c2_success_save (s : DataLayer) (d : SaveData) (resp : Response) (v : String)
    (hdel : s._isDeleted = false) (href : s._referenceVersion = none)
    (hv : resp.versionHeader = some v) (hne : ¬ v = "") :
    (managedSave (PostOutcome.success d resp) s).2.2 = some true ∧
    (managedSave (PostOutcome.success d resp) s).1._referenceVersion = some v ∧
    ¬ v = "" ∧
    (managedSave (PostOutcome.success d resp) s).1._isDirty = false ∧
    (∀ g, d.geojson = some g →
      List.Perm (((managedSave (PostOutcome.success d resp) s).1._features).map
          (fun p => Feature.raw p.2))
        (g.features.filter (fun raw => knownGeometry raw.geomType)) ∧
      (managedSave (PostOutcome.success d resp) s).1._geojson_bk = some g ∧
      (managedSave (PostOutcome.success d resp) s).1._backupOptions
        = (managedSave (PostOutcome.success d resp) s).1.options) := by
  have hld : isLoaded s = true := by
    simp [isLoaded, createdOnServer, href]
  have hms := managedSave_success_eq s d resp hdel hld
  refine ⟨by rw [hms], by rw [hms]; simp [hv], hne, by rw [hms], ?_⟩
  intro g hg
  obtain ⟨p1, p2, p3, p4, p5, p6, p7, p8⟩ := fromGeoJSON_proj g true (clear s)
  refine ⟨?_, ?_, ?_⟩
  · rw [hms]
    simp only [hg]
    simp only [updateOptions]
    rw [p3]
    exact makeFeatures_raw_perm g (clear s) (clear_proj s).1
  · rw [hms]
    simp only [hg]
    simp only [updateOptions]
    exact p1
  · rw [hms]

/-- The body of the first successful save response in the witness: a
resolved feature collection with one known and one unknown geometry. -/
def demoSaveData : SaveData :=
  { geojson := some { features := [ { geomType := .point, properties := [("name", .str "B")] },
                                    { geomType := .other "Weird" } ] } }

/-- The success response of the witness, carrying version token `v2`. -/
def demoResponse : Response := { status := 200, versionHeader := some "v2" }

/-- Witness for C2 at a concrete input: the fresh local layer saved once
against the demo success response. -/
theorem c2_success_save_witness :
    (managedSave (PostOutcome.success demoSaveData demoResponse) freshLocalLayer).2.2
      = some true ∧
    (managedSave (PostOutcome.success demoSaveData demoResponse)
      freshLocalLayer).1._referenceVersion = some "v2" ∧
    (managedSave (PostOutcome.success demoSaveData demoResponse)
      freshLocalLayer).1._isDirty = false :=
  ⟨(c2_success_save freshLocalLayer demoSaveData demoResponse "v2" rfl rfl rfl
      (by decide)).1,
   (c2_success_save freshLocalLayer demoSaveData demoResponse "v2" rfl rfl rfl
      (by decide)).2.1,
   (c2_success_save freshLocalLayer demoSaveData demoResponse "v2" rfl rfl rfl
      (by decide)).2.2.2.1⟩

end Umap
